import Mathlib

/-!
Verification of the xlsx/pdf → HTML conversion backend.

The Python sources are shallowly embedded: HTML output is modelled as
`List Char`, Python floats as `ℚ` (exact arithmetic), Python `int()`
truncation as `pyTrunc`, and raising code returns `Option`/`Except`-style
values.  Each embedded definition mirrors one function of
`app/services/xlsx_to_html.py`, `app/services/pdf_analyzer.py`,
`app/services/html_builder.py` or `app/main.py`.
-/

namespace DocAgent

/-- Character list of a string literal (HTML fragments are `List Char`). -/
def lit (s : String) : List Char := s.toList

/-- Python `str.replace` for a single-character needle: every occurrence of
`c` is replaced by `rep`. -/
def replChar (c : Char) (rep : List Char) (s : List Char) : List Char :=
  s.flatMap (fun a => if a = c then rep else [a])

/-- Python `int()` on a rational: truncation toward zero. -/
def pyTrunc (q : ℚ) : ℤ :=
  if 0 ≤ q then ⌊q⌋ else -⌊-q⌋

/-- Decimal digit character. -/
def digitChar (n : Nat) : Char := Char.ofNat (48 + n)

/-- Decimal digits of a natural number, most significant first (fuel-based
so it reduces by `decide`). -/
def natDigits : Nat → Nat → List Char
  | 0, _ => []
  | fuel + 1, n =>
    if n < 10 then [digitChar n]
    else natDigits fuel (n / 10) ++ [digitChar (n % 10)]

/-- Decimal representation of a natural number. -/
def natRepr (n : Nat) : List Char := natDigits 64 n

/-- Decimal representation of an integer (Python `str` / f-string of an int). -/
def intRepr (n : ℤ) : List Char :=
  if n < 0 then '-' :: natRepr n.natAbs else natRepr n.natAbs

/-- Fractional digits of `r / d` (long division, fuel-bounded). -/
def fracDigits : Nat → Nat → Nat → List Char
  | 0, _, _ => []
  | fuel + 1, r, d =>
    if r = 0 then []
    else digitChar (r * 10 / d) :: fracDigits fuel (r * 10 % d) d

/-- f-string rendering of a Python float value, modelled on exact rationals:
sign, integer part, decimal point, fractional digits (`10.0` renders with a
trailing `.0`, as Python prints floats). -/
def decRepr (q : ℚ) : List Char :=
  let sgn : List Char := if q < 0 then ['-'] else []
  let m := q.num.natAbs
  let d := q.den
  sgn ++ natRepr (m / d) ++ ['.'] ++ (if m % d = 0 then ['0'] else fracDigits 30 (m % d) d)

/-! ### Escape helpers (`html_builder._css_escape`, `pdf_analyzer._css_escape`)

`html_builder._css_escape` replaces `<`, then `>`, then `&`;
`pdf_analyzer._css_escape` replaces `&`, then `<`, then `>`. -/

/-- Source `app/services/html_builder.py` line 4:
`text.replace("<", "&lt;").replace(">", "&gt;").replace("&", "&amp;")`. -/
def hb_cssEscape (text : List Char) : List Char :=
  replChar '&' (lit "&amp;") (replChar '>' (lit "&gt;") (replChar '<' (lit "&lt;") text))

/-- Source `app/services/pdf_analyzer.py` line 28 (string path):
`text.replace("&", "&amp;").replace("<", "&lt;").replace(">", "&gt;")`. -/
def pa_cssEscape (text : List Char) : List Char :=
  replChar '>' (lit "&gt;") (replChar '<' (lit "&lt;") (replChar '&' (lit "&amp;") text))

/-! ### Python dynamic values and `pdf_analyzer._rgba_to_hex` -/

/-- A Python value that can occur as a colour component. -/
inductive PyVal where
  | int (n : ℤ)
  | float (q : ℚ)
  | str (s : List Char)
deriving DecidableEq

/-- A Python value passed as the `rgba` argument of `_rgba_to_hex`:
`None`, a scalar `int`, a `list`/`tuple`, or anything else. -/
inductive PyColor where
  | pynone
  | pyint (n : ℤ)
  | pyseq (vals : List PyVal)
  | pyother
deriving DecidableEq

/-- Python `int(s)` on a string: optional sign followed by decimal digits;
anything else raises (`none`). -/
def parseIntStr (s : List Char) : Option ℤ :=
  let core : List Char → Option ℤ := fun ds =>
    if ds ≠ [] ∧ ds.all (fun c => '0' ≤ c ∧ c ≤ '9') then
      some (ds.foldl (fun acc c => 10 * acc + (c.toNat - 48 : ℤ)) 0)
    else none
  match s with
  | '-' :: rest => (core rest).map (fun n => -n)
  | '+' :: rest => core rest
  | _ => core s

/-- Python `int(v)` on a component: identity on ints, truncation on floats,
string parsing on strings (raising — `none` — on non-numeric strings). -/
def pyIntOf : PyVal → Option ℤ
  | .int n => some n
  | .float q => some (pyTrunc q)
  | .str s => parseIntStr s

/-- `isinstance(v, float) and 0.0 <= v <= 1.0`. -/
def isFloat01 : PyVal → Bool
  | .float q => decide (0 ≤ q ∧ q ≤ 1)
  | _ => false

/-- Python `v == 0` for a component (strings are never equal to `0`). -/
def pyEqZero : PyVal → Bool
  | .int n => decide (n = 0)
  | .float q => decide (q = 0)
  | .str _ => false

/-- Uppercase hexadecimal digit character. -/
def hexChar (n : Nat) : Char :=
  if n < 10 then Char.ofNat (48 + n) else Char.ofNat (55 + n)

/-- Uppercase hexadecimal digits, most significant first (fuel-based). -/
def hexDigitsAux : Nat → Nat → List Char
  | 0, _ => []
  | fuel + 1, n =>
    if n < 16 then [hexChar n]
    else hexDigitsAux fuel (n / 16) ++ [hexChar (n % 16)]

/-- Uppercase hexadecimal representation of a natural number. -/
def hexUpper (n : Nat) : List Char := hexDigitsAux 64 n

/-- Python `format(n, "02X")`: uppercase hex, zero-padded to overall width 2
(the sign of a negative number counts toward the width). -/
def fmt02X (n : ℤ) : List Char :=
  if n < 0 then '-' :: hexUpper n.natAbs
  else
    let ds := hexUpper n.natAbs
    if ds.length < 2 then '0' :: ds else ds

/-- Source `app/services/pdf_analyzer.py` lines 7-25, `_rgba_to_hex`.
`none` models an uncaught exception (e.g. `int()` on a non-numeric string). -/
def rgbaToHex (c : PyColor) : Option (List Char) :=
  match c with
  | .pynone => some (lit "transparent")
  | .pyint _ => some (lit "#000000")
  | .pyseq vals =>
    match vals with
    | r :: g :: b :: _ =>
      let rgb? : Option (ℤ × ℤ × ℤ) :=
        if isFloat01 r && isFloat01 g && isFloat01 b then
          match r, g, b with
          | .float rq, .float gq, .float bq =>
            some (pyTrunc (rq * 255), pyTrunc (gq * 255), pyTrunc (bq * 255))
          | _, _, _ => none
        else
          (pyIntOf r).bind fun ri =>
            (pyIntOf g).bind fun gi =>
              (pyIntOf b).map fun bi => (ri, gi, bi)
      match rgb? with
      | none => none
      | some (ri, gi, bi) =>
        if vals.length = 4 ∧ pyEqZero (vals.getD 3 (.int 1)) then
          some (lit "transparent")
        else
          some ('#' :: (fmt02X ri ++ fmt02X gi ++ fmt02X bi))
    | _ => some (lit "#000000")
  | .pyother => some (lit "#000000")

/-- `c` is an uppercase hexadecimal digit. -/
def isHexUp (c : Char) : Bool :=
  ('0' ≤ c && c ≤ '9') || ('A' ≤ c && c ≤ 'F')

/-- The string matches the pattern of the spec: a hash sign followed by
exactly six uppercase hexadecimal digits. -/
def matchesHex6 (s : List Char) : Bool :=
  match s with
  | '#' :: rest => rest.length == 6 && rest.all isHexUp
  | _ => false

/-- A colour component is well-behaved: `int()` succeeds on it and the
resulting value lies in `0..255`. -/
def goodComp (v : PyVal) : Bool :=
  match pyIntOf v with
  | some n => decide (0 ≤ n ∧ n ≤ 255)
  | none => false

/-- Inputs on which `_rgba_to_hex` is well-behaved: everything except a
sequence of three-or-more components whose first three neither are all
floats in `[0, 1]` nor all convert to integers in `0..255`. -/
def goodColorB : PyColor → Bool
  | .pyseq (r :: g :: b :: _) =>
    (isFloat01 r && isFloat01 g && isFloat01 b) ||
      (goodComp r && goodComp g && goodComp b)
  | _ => true

/-! ### Luminance, thickness mapping and border strings (`pdf_analyzer`) -/

/-- Value of one hexadecimal digit, either case (as accepted by
Python `int(s, 16)`). -/
def hexDigitVal (c : Char) : Option Nat :=
  if '0' ≤ c ∧ c ≤ '9' then some (c.toNat - 48)
  else if 'A' ≤ c ∧ c ≤ 'F' then some (c.toNat - 55)
  else if 'a' ≤ c ∧ c ≤ 'f' then some (c.toNat - 87)
  else none

/-- Python `int(s, 16)`: `none` models a raised `ValueError` (empty string
or non-hex character). -/
def pyIntBase16 (s : List Char) : Option Nat :=
  match s with
  | [] => none
  | _ => s.foldl (fun acc c => acc.bind fun a => (hexDigitVal c).map fun v => 16 * a + v)
      (some 0)

/-- Source `app/services/pdf_analyzer.py` lines 38-48, `_luminance_from_hex`:
perceived luminance 0..255; empty, `transparent`, or unparsable input
gives 255. -/
def luminanceFromHex (h : List Char) : ℚ :=
  if h = [] ∨ h = lit "transparent" then 255
  else
    match pyIntBase16 ((h.drop 1).take 2), pyIntBase16 ((h.drop 3).take 2),
        pyIntBase16 ((h.drop 5).take 2) with
    | some r, some g, some b => 0.299 * (r : ℚ) + 0.587 * (g : ℚ) + 0.114 * (b : ℚ)
    | _, _, _ => 255

/-- Source `app/services/pdf_analyzer.py` lines 51-56,
`_map_pdf_thickness_to_css`: falsy thickness gives 0.5, otherwise
`thickness * scale * 0.75` clamped to `[0.2, 3.0]`. -/
def mapPdfThicknessToCss (thickness : ℚ) (scale : ℚ) : ℚ :=
  if thickness = 0 then 0.5
  else max 0.2 (min (thickness * scale * 0.75) 3.0)

/-- Source `app/services/pdf_analyzer.py` lines 59-66, `_border_css_from`.
Note that it re-applies `_map_pdf_thickness_to_css` (at scale 1) to its
`thickness` argument. -/
def borderCssFrom (strokeHex : List Char) (thickness : ℚ) : List Char :=
  let cssTh := mapPdfThicknessToCss thickness 1
  let lum := luminanceFromHex strokeHex
  let style := if lum ≤ 230 then lit "solid" else lit "dotted"
  if strokeHex = lit "transparent" then lit "none"
  else decRepr cssTh ++ lit "px " ++ style ++ lit " " ++ strokeHex

/-- The border pipeline of the rect branch of
`pdf_analyzer._build_page_absolute` (lines 184-185): the raw thickness is
converted by `_map_pdf_thickness_to_css` at the given scale and the result
is passed to `_border_css_from`, which converts it a second time. -/
def rectBorderCss (stroke : List Char) (thickness scale : ℚ) : List Char :=
  borderCssFrom stroke (mapPdfThicknessToCss thickness scale)

/-! ### Spreadsheet conversion (`xlsx_to_html.convert_xlsx_to_html`) -/

/-- Source `app/services/xlsx_to_html.py` lines 5-9, `_css_color`: strip
hash signs, drop a leading alpha byte of 8-digit values, lowercase, and
prepend a hash sign; falsy input gives `none`. -/
def cssColor (rgb : Option (List Char)) : Option (List Char) :=
  match rgb with
  | none => none
  | some s =>
    if s = [] then none
    else
      let s1 := replChar '#' [] s
      let s2 := if s1.length = 8 then s1.drop 2 else s1
      some ('#' :: s2.map Char.toLower)

/-- Source `app/services/xlsx_to_html.py` line 22: the pixel width of a
column, `int((width + 0.72) * 7)` (Python `int` truncates toward zero). -/
def colPx (width : ℚ) : ℤ := pyTrunc ((width + 0.72) * 7)

/-- Source `app/services/xlsx_to_html.py` line 20: a missing or falsy
declared column width defaults to 10. -/
def colWidthPx (declared : Option ℚ) : ℤ :=
  colPx (match declared with
    | none => 10
    | some w => if w = 0 then 10 else w)

/-- A `<col>` element of the column group (line 27). -/
def colTag (px : ℤ) : List Char :=
  lit "<col style=\x27width:" ++ intRepr px ++ lit "px\x27>"

/-- A merged-cell region of the worksheet: anchor `(rr, cc)` (its top-left,
`min_row`/`min_col`) spanning `rs` rows and `cs` columns (`mr.size`). -/
structure MergeEntry where
  rr : Nat
  cc : Nat
  rs : Nat
  cs : Nat
deriving DecidableEq, Repr

/-- Position `(r, c)` lies inside region `e`. -/
def coversB (e : MergeEntry) (r c : Nat) : Bool :=
  decide (e.rr ≤ r) && decide (r < e.rr + e.rs) &&
    decide (e.cc ≤ c) && decide (c < e.cc + e.cs)

/-- `(r, c)` is the anchor (top-left) of `e`. -/
def isAnchorB (e : MergeEntry) (r c : Nat) : Bool :=
  decide (e.rr = r) && decide (e.cc = c)

/-- Source lines 41-45: the cell at `(r, c)` is skipped because some merge
region covers it without being anchored there. -/
def skipAt (M : List MergeEntry) (r c : Nat) : Bool :=
  M.any (fun e => coversB e r c && !isAnchorB e r c)

/-- Lookup of `(r, c)` in the merge dictionary (line 51): Python dict
semantics, the last insertion for a key wins. -/
def mergeLookup (M : List MergeEntry) (r c : Nat) : Option (Nat × Nat) :=
  match M with
  | [] => none
  | e :: rest =>
    match mergeLookup rest r c with
    | some v => some v
    | none => if e.rr = r ∧ e.cc = c then some (e.rs, e.cs) else none

/-- A table cell emitted by the row loop: its grid position and its
rowspan/colspan. -/
structure TCell where
  r : Nat
  c : Nat
  rowspan : Nat
  colspan : Nat
deriving DecidableEq, Repr

/-- Source lines 37-90, the `while c <= ws.max_column` loop of one row:
skip covered non-anchor positions (advance by 1), otherwise emit a cell
with the spans of the merge anchored there (default 1,1) and advance by
its colspan.  `fuel` bounds the iteration count (the Python loop diverges
when a colspan is 0; with valid merges `fuel = maxCol + 1` is enough). -/
def rowCells (M : List MergeEntry) (maxCol r : Nat) : Nat → Nat → List TCell
  | _, 0 => []
  | c, fuel + 1 =>
    if maxCol < c then []
    else if skipAt M r c then rowCells M maxCol r (c + 1) fuel
    else
      let sp := (mergeLookup M r c).getD (1, 1)
      ⟨r, c, sp.1, sp.2⟩ :: rowCells M maxCol r (c + sp.2) fuel

/-- Source lines 35-91: all cells of the table, rows 1..maxRow in order. -/
def tableCells (M : List MergeEntry) (maxRow maxCol : Nat) : List TCell :=
  (List.range' 1 maxRow).flatMap (fun r => rowCells M maxCol r 1 (maxCol + 1))

/-- A merge region is declared within the `maxRow × maxCol` grid: its
anchor is at row/column at least 1, it spans at least one row and one
column, and it ends inside the grid. -/
def EntryInGrid (maxRow maxCol : Nat) (e : MergeEntry) : Prop :=
  1 ≤ e.rr ∧ 1 ≤ e.cc ∧ 1 ≤ e.rs ∧ 1 ≤ e.cs ∧
    e.rr + e.rs - 1 ≤ maxRow ∧ e.cc + e.cs - 1 ≤ maxCol

/-- Two merge regions share no covered position. -/
def EntriesDisjoint (e1 e2 : MergeEntry) : Prop :=
  ∀ r c, ¬ (coversB e1 r c = true ∧ coversB e2 r c = true)

/-- The formatting attributes of one worksheet cell as the converter reads
them from openpyxl (`some` models a present, truthy attribute). -/
structure XCell where
  value : Option (List Char)
  fillRgb : Option (List Char)
  fontColorRgb : Option (List Char)
  fontBold : Bool
  fontSize : Option ℚ
  fontName : Option (List Char)
  alignH : Option (List Char)
  alignV : Option (List Char)
  wrapText : Bool
  borderLeft : Bool
  borderRight : Bool
  borderTop : Bool
  borderBottom : Bool

/-- Source lines 54-81: the `style_parts` list of one cell. -/
def stylePartsOf (cell : XCell) : List (List Char) :=
  (match cell.fillRgb with
    | some rgb =>
      match cssColor (some rgb) with
      | some col => [lit "background:" ++ col]
      | none => []
    | none => []) ++
  (match cell.fontColorRgb with
    | some rgb =>
      if rgb = [] then [] else [lit "color:" ++ (cssColor (some rgb)).getD []]
    | none => []) ++
  (if cell.fontBold then [lit "font-weight:bold"] else []) ++
  (match cell.fontSize with
    | some sz => if sz = 0 then [] else [lit "font-size:" ++ intRepr (pyTrunc sz) ++ lit "px"]
    | none => []) ++
  (match cell.fontName with
    | some nm => if nm = [] then [] else [lit "font-family:\x27" ++ nm ++ lit "\x27"]
    | none => []) ++
  (match cell.alignH with
    | some ha => [lit "text-align:" ++ ha]
    | none => []) ++
  (match cell.alignV with
    | some va => [lit "vertical-align:" ++ (if va = lit "center" then lit "middle" else va)]
    | none => []) ++
  (if cell.wrapText then [lit "white-space:normal"] else []) ++
  (if cell.borderLeft then [lit "border-left:1px solid #000"] else []) ++
  (if cell.borderRight then [lit "border-right:1px solid #000"] else []) ++
  (if cell.borderTop then [lit "border-top:1px solid #000"] else []) ++
  (if cell.borderBottom then [lit "border-bottom:1px solid #000"] else [])

/-- Source lines 83-89: the `<td>` markup of one emitted cell.  The cell
value is interpolated into the f-string verbatim (no escaping). -/
def renderCell (rowspan colspan : Nat) (cell : XCell) : List Char :=
  let txt := cell.value.getD []
  let attrs :=
    (if 1 < rowspan then [lit "rowspan=\x27" ++ natRepr rowspan ++ lit "\x27"] else []) ++
    (if 1 < colspan then [lit "colspan=\x27" ++ natRepr colspan ++ lit "\x27"] else []) ++
    [lit "style=\"" ++ List.intercalate (lit ";") (stylePartsOf cell) ++ lit "\""]
  lit "<td " ++ List.intercalate (lit " ") attrs ++ lit ">" ++ txt ++ lit "</td>"

/-- A worksheet as the converter reads it. -/
structure Sheet where
  maxRow : Nat
  maxCol : Nat
  merges : List MergeEntry
  colWidths : List (Option ℚ)
  cellAt : Nat → Nat → XCell

/-- Source lines 25-92: the assembled table markup (column group, then the
rows, each cell rendered at its emitted position). -/
def convertSheetHtml (s : Sheet) : List Char :=
  List.intercalate (lit "\n")
    ([lit "<table class=\x27sheet\x27>", lit "<colgroup>"] ++
      (s.colWidths.map (fun w => colTag (colWidthPx w))) ++
      [lit "</colgroup>"] ++
      ((List.range' 1 s.maxRow).flatMap (fun r =>
        [lit "<tr>"] ++
          ((rowCells s.merges s.maxCol r 1 (s.maxCol + 1)).map
            (fun tc => renderCell tc.rowspan tc.colspan (s.cellAt tc.r tc.c))) ++
          [lit "</tr>"])) ++
      [lit "</table>"])

/-! ### PDF page rendering (`pdf_analyzer._build_page_absolute`) -/

/-- A page element as extracted by `extract_layout`: a text span, a rect
(or line reduced to a rect), or an image (whose bitmap bytes may be
missing). -/
inductive PdfEl where
  | text (x0 y0 x1 y1 : ℚ) (txt : List Char) (fontName : List Char) (fontSize : ℚ)
      (color : List Char)
  | rect (x0 y0 x1 y1 : ℚ) (stroke fill : List Char) (thickness : ℚ)
  | image (x0 y0 x1 y1 : ℚ) (imageBytes : Option (List Nat))

/-- The horizontal position of a text box (line 171): `x0 * scale`. -/
def textLeft (x0 scale : ℚ) : ℚ := x0 * scale

/-- The vertical position of a text box (line 171):
`y0 * scale - fontSize * 0.8` (the baseline correction uses the raw font
size, not the scaled one). -/
def textTop (y0 fontSize scale : ℚ) : ℚ := y0 * scale - fontSize * 0.8

/-- Standard base64 alphabet. -/
def b64Char (n : Nat) : Char :=
  (lit "ABCDEFGHIJKLMNOPQRSTUVWXYZabcdefghijklmnopqrstuvwxyz0123456789+/").getD n 'A'

/-- Base64 encoding of a byte list (`base64.b64encode`). -/
def b64Encode : List Nat → List Char
  | [] => []
  | [a] => [b64Char (a / 4), b64Char (a % 4 * 16), '=', '=']
  | [a, b] => [b64Char (a / 4), b64Char (a % 4 * 16 + b / 16), b64Char (b % 16 * 4), '=']
  | a :: b :: c :: rest =>
    [b64Char (a / 4), b64Char (a % 4 * 16 + b / 16), b64Char (b % 16 * 4 + c / 64),
      b64Char (c % 64)] ++ b64Encode rest

/-- Source lines 169-177: the inline style of a text element. -/
def paTextStyle (x0 y0 : ℚ) (fontName : List Char) (size : ℚ) (color : List Char)
    (scale : ℚ) : List Char :=
  lit "position:absolute;left:" ++ decRepr (textLeft x0 scale) ++
    lit "px;top:" ++ decRepr (textTop y0 size scale) ++
    lit "px;font-family:" ++ fontName ++
    lit ";font-size:" ++ decRepr size ++
    lit "px;color:" ++ color ++
    lit ";line-height:" ++ decRepr (size * 1.1) ++
    lit "px;white-space:pre;z-index:10;"

/-- Source lines 187-190: the inline style of a rect element (before the
optional border). -/
def paRectStyle (x0s y0s w h : ℚ) (fill : List Char) : List Char :=
  lit "position:absolute;left:" ++ decRepr x0s ++ lit "px;top:" ++ decRepr y0s ++
    lit "px;width:" ++ decRepr w ++ lit "px;height:" ++ decRepr h ++
    lit "px;background:" ++ fill ++ lit ";z-index:1;"

/-- Source lines 197-204: the inline style of an image element, with the
300px cap appended when a displayed dimension exceeds 300. -/
def paImgStyle (x0s y0s w h : ℚ) (cap : Bool) : List Char :=
  (lit "position:absolute;left:" ++ decRepr x0s ++ lit "px;top:" ++ decRepr y0s ++
      lit "px;width:" ++ decRepr w ++ lit "px;height:" ++ decRepr h ++
      lit "px;object-fit:contain;z-index:5;") ++
    (if cap then lit "max-width:300px;max-height:300px;" else [])

/-- Source lines 163-205: the html fragment one element contributes in
absolute mode (`none` when nothing is emitted — an image without bitmap
bytes). -/
def paEmitEl (el : PdfEl) (scale : ℚ) : Option (List Char) :=
  match el with
  | .text x0 y0 _ _ txt fontName size color =>
    some (lit "<div style=\"" ++ paTextStyle x0 y0 fontName size color scale ++
      lit "\">" ++ pa_cssEscape txt ++ lit "</div>")
  | .rect x0 y0 x1 y1 stroke fill thickness =>
    let x0s := x0 * scale
    let y0s := y0 * scale
    let w := max 0 (x1 * scale - x0s)
    let h := max 0 (y1 * scale - y0s)
    let borderCss := rectBorderCss stroke thickness scale
    let style := paRectStyle x0s y0s w h fill ++
      (if borderCss = lit "none" then [] else lit "border:" ++ borderCss ++ lit ";")
    some (lit "<div style=\"" ++ style ++ lit "\"></div>")
  | .image x0 y0 x1 y1 bytes? =>
    match bytes? with
    | some (b :: bs) =>
      let x0s := x0 * scale
      let y0s := y0 * scale
      let w := max 0 (x1 * scale - x0s)
      let h := max 0 (y1 * scale - y0s)
      let cap := decide (300 < w) || decide (300 < h)
      some (lit "<img style=\"" ++ paImgStyle x0s y0s w h cap ++
        lit "\" src=\"data:image/png;base64," ++ b64Encode (b :: bs) ++ lit "\"/>")
    | _ => none

/-- Source lines 159-209: the absolute-mode page markup of
`pdf_analyzer._build_page_absolute`. -/
def paBuildPageAbsolute (width height : ℚ) (els : List PdfEl) (scale : ℚ) : List Char :=
  List.intercalate (lit "\n")
    ([lit "<div class=\"page\" style=\"position:relative;width:" ++
        decRepr (width * scale) ++ lit "px;height:" ++ decRepr (height * scale) ++
        lit "px;\">"] ++
      els.filterMap (fun el => paEmitEl el scale) ++
      [lit "</div>"])

/-! ### PDF page rendering (`html_builder._build_page_absolute`) -/

/-- Source `app/services/html_builder.py` lines 16-20, `_is_dark`:
luminance below 128; parsing of a malformed stroke string raises
(`none`). -/
def hbIsDark (strokeHex : List Char) : Option Bool :=
  (pyIntBase16 ((strokeHex.drop 1).take 2)).bind fun r =>
    (pyIntBase16 ((strokeHex.drop 3).take 2)).bind fun g =>
      (pyIntBase16 ((strokeHex.drop 5).take 2)).map fun b =>
        decide ((0.299 * (r : ℚ) + 0.587 * (g : ℚ) + 0.114 * (b : ℚ)) < 128)

/-- Source `app/services/html_builder.py` lines 26-50: the html fragments
one element contributes (at most one; an image without bytes contributes
none).  The outer `none` models an exception from `_is_dark`. -/
def hbEmitEl (el : PdfEl) : Option (List (List Char)) :=
  match el with
  | .text x0 y0 _ _ txt fontName size color =>
    some [lit "<div style=\"position:absolute;left:" ++ decRepr x0 ++
      lit "px;top:" ++ decRepr y0 ++ lit "px;font-family:" ++ fontName ++
      lit ";font-size:" ++ decRepr size ++ lit "px;color:" ++ color ++
      lit ";\">" ++ hb_cssEscape txt ++ lit "</div>"]
  | .rect x0 y0 x1 y1 stroke fill thickness =>
    (hbIsDark stroke).map fun dark =>
      let w := max 0 (x1 - x0)
      let h := max 0 (y1 - y0)
      let borderStyle := if dark then lit "solid" else lit "none"
      [lit "<div style=\"position:absolute;left:" ++ decRepr x0 ++
        lit "px;top:" ++ decRepr y0 ++ lit "px;width:" ++ decRepr w ++
        lit "px;height:" ++ decRepr h ++ lit "px;border:" ++ decRepr thickness ++
        lit "px " ++ borderStyle ++ lit " " ++ stroke ++ lit ";background:" ++
        fill ++ lit ";\"></div>"]
  | .image x0 y0 x1 y1 bytes? =>
    match bytes? with
    | some (b :: bs) =>
      some [lit "<img style=\"position:absolute;left:" ++ decRepr x0 ++
        lit "px;top:" ++ decRepr y0 ++ lit "px;width:" ++ decRepr (x1 - x0) ++
        lit "px;height:" ++ decRepr (y1 - y0) ++
        lit "px;\" src=\"data:image/png;base64," ++ b64Encode (b :: bs) ++ lit "\"/>"]
    | _ => some []

/-- Sequence the per-element fragments, propagating an exception. -/
def hbCollect : List PdfEl → Option (List (List Char))
  | [] => some []
  | e :: rest =>
    (hbEmitEl e).bind fun fs => (hbCollect rest).map fun rs => fs ++ rs

/-- Source `app/services/html_builder.py` lines 22-54: the absolute-mode
page markup of `html_builder._build_page_absolute` (the builder that
`main.py` routes `/analyze/pdf` through). -/
def hbBuildPageAbsolute (width height : ℚ) (els : List PdfEl) : Option (List Char) :=
  (hbCollect els).map fun frags =>
    List.intercalate (lit "\n")
      ([lit "<div class=\"page\" style=\"position:relative;width:" ++ decRepr width ++
          lit "px;height:" ++ decRepr height ++ lit "px;\">"] ++
        frags ++ [lit "</div>"])

/-! ### Document shell (`app/main.py`, `analyze_pdf`) -/

/-- Source `app/main.py` lines 37-51: the full document shell wrapped
around the assembled css and html. -/
def fullDoc (css html : List Char) : List Char :=
  lit "<!DOCTYPE html>\n    <html lang=\"en\">\n    <head>\n    <meta charset=\"UTF-8\">\n    <meta name=\"viewport\" content=\"width=device-width, initial-scale=1.0\">\n    <title>Document</title>\n    <style>\n    " ++
    css ++
    lit "\n    </style>\n    </head>\n    <body>\n    " ++
    html ++
    lit "\n    </body>\n    </html>\n    "

lemma replChar_eq_self_of_not_mem {c : Char} {rep s : List Char} (h : c ∉ s) :
    replChar c rep s = s := by
  induction s with
  | nil => rfl
  | cons a t ih =>
    simp only [List.mem_cons, not_or] at h
    simp [replChar, List.flatMap_cons, if_neg (Ne.symm h.1)]
    have := ih h.2
    simpa [replChar] using this

lemma mem_replChar {x c : Char} {rep s : List Char}
    (h : x ∈ replChar c rep s) : x ∈ rep ∨ x ∈ s := by
  induction s with
  | nil => simp [replChar] at h
  | cons a t ih =>
    simp only [replChar, List.flatMap_cons, List.mem_append] at h
    rcases h with h1 | h2
    · by_cases hac : a = c
      · rw [if_pos hac] at h1
        exact Or.inl h1
      · rw [if_neg hac] at h1
        simp only [List.mem_singleton] at h1
        subst h1
        exact Or.inr (List.mem_cons_self _ _)
    · rcases ih (by simpa [replChar] using h2) with h' | h'
      · exact Or.inl h'
      · exact Or.inr (List.mem_cons_of_mem _ h')

lemma isInfix_extend_right {α : Type} {a x : List α} (y : List α) (h : a <:+: x) :
    a <:+: x ++ y := by
  obtain ⟨s, t, hst⟩ := h
  exact ⟨s, t ++ y, by rw [← hst]; simp⟩

lemma isInfix_extend_left {α : Type} {a y : List α} (x : List α) (h : a <:+: y) :
    a <:+: x ++ y := by
  obtain ⟨s, t, hst⟩ := h
  exact ⟨x ++ s, t, by rw [← hst]; simp⟩

/-! ### C5: the two `_css_escape` helpers -/

/-- C5 counterexample: on the input `"<"` the two escape helpers disagree —
`html_builder._css_escape` re-escapes the ampersand of its own `&lt;`
replacement and yields `"&amp;lt;"`, while `pdf_analyzer._css_escape`
yields `"&lt;"`. -/
theorem C5_counterexample :
    hb_cssEscape (lit "<") = lit "&amp;lt;" ∧
      pa_cssEscape (lit "<") = lit "&lt;" ∧
      hb_cssEscape (lit "<") ≠ pa_cssEscape (lit "<") := by
  refine ⟨rfl, rfl, ?_⟩
  decide

/-- C5 (amended): the two escape helpers agree on every string containing
neither `<` nor `>`; on such strings both reduce to the single `&`
replacement, so no ampersand introduced by a replacement is re-escaped.
They disagree in general because `html_builder._css_escape` replaces `&`
last. -/
theorem C5_agree_of_no_angle (s : List Char) (h1 : '<' ∉ s) (h2 : '>' ∉ s) :
    hb_cssEscape s = pa_cssEscape s := by
  have hlt : '<' ∉ replChar '&' (lit "&amp;") s := by
    intro hm
    rcases mem_replChar hm with h | h
    · revert h; decide
    · exact h1 h
  have hgt : '>' ∉ replChar '&' (lit "&amp;") s := by
    intro hm
    rcases mem_replChar hm with h | h
    · revert h; decide
    · exact h2 h
  unfold hb_cssEscape pa_cssEscape
  rw [replChar_eq_self_of_not_mem h1, replChar_eq_self_of_not_mem h2,
    replChar_eq_self_of_not_mem hlt, replChar_eq_self_of_not_mem hgt]

/-- C5 witness: the amended theorem applied to the concrete string
`"a&b"`. -/
theorem C5_agree_witness :
    '<' ∉ lit "a&b" ∧ '>' ∉ lit "a&b" ∧
      hb_cssEscape (lit "a&b") = pa_cssEscape (lit "a&b") :=
  ⟨by decide, by decide, C5_agree_of_no_angle (lit "a&b") (by decide) (by decide)⟩

/-! ### C2: `_rgba_to_hex` output shape -/

lemma hexUpper_unfold (m : Nat) :
    hexUpper m = if m < 16 then [hexChar m]
      else hexDigitsAux 63 (m / 16) ++ [hexChar (m % 16)] := rfl

lemma hexDigitsAux63_unfold (m : Nat) :
    hexDigitsAux 63 m = if m < 16 then [hexChar m]
      else hexDigitsAux 62 (m / 16) ++ [hexChar (m % 16)] := rfl

lemma isHexUp_hexChar {m : Nat} (h : m < 16) : isHexUp (hexChar m) = true := by
  have : ∀ k : Nat, k < 16 → isHexUp (hexChar k) = true := by decide
  exact this m h

lemma hexUpper_lt16 {m : Nat} (h : m < 16) : hexUpper m = [hexChar m] := by
  rw [hexUpper_unfold, if_pos h]

lemma hexUpper_two {m : Nat} (h16 : 16 ≤ m) (h : m < 256) :
    hexUpper m = [hexChar (m / 16), hexChar (m % 16)] := by
  rw [hexUpper_unfold, if_neg (by omega), hexDigitsAux63_unfold,
    if_pos (by omega)]
  rfl

lemma fmt02X_hex {n : ℤ} (h0 : 0 ≤ n) (h255 : n ≤ 255) :
    (fmt02X n).length = 2 ∧ (fmt02X n).all isHexUp = true := by
  have hn : ¬ n < 0 := not_lt.2 h0
  have hlt : n.natAbs < 256 := by omega
  by_cases hc : n.natAbs < 16
  · have : fmt02X n = '0' :: [hexChar n.natAbs] := by
      simp only [fmt02X, if_neg hn, hexUpper_lt16 hc]
      rfl
    rw [this]
    refine ⟨rfl, ?_⟩
    simp [List.all_cons, isHexUp_hexChar hc]
    decide
  · have h2 : hexUpper n.natAbs = [hexChar (n.natAbs / 16), hexChar (n.natAbs % 16)] :=
      hexUpper_two (le_of_not_lt hc) hlt
    have : fmt02X n = [hexChar (n.natAbs / 16), hexChar (n.natAbs % 16)] := by
      simp only [fmt02X, if_neg hn, h2]
      rfl
    rw [this]
    refine ⟨rfl, ?_⟩
    have hd : n.natAbs / 16 < 16 := by omega
    have hm : n.natAbs % 16 < 16 := Nat.mod_lt _ (by omega)
    simp [List.all_cons, isHexUp_hexChar hd, isHexUp_hexChar hm]

lemma matchesHex6_concat {l1 l2 l3 : List Char}
    (h1 : l1.length = 2 ∧ l1.all isHexUp = true)
    (h2 : l2.length = 2 ∧ l2.all isHexUp = true)
    (h3 : l3.length = 2 ∧ l3.all isHexUp = true) :
    matchesHex6 ('#' :: (l1 ++ l2 ++ l3)) = true := by
  simp only [matchesHex6, List.length_append, List.all_append, Bool.and_eq_true,
    beq_iff_eq, List.all_eq_true]
  refine ⟨by rw [h1.1, h2.1, h3.1], ⟨List.all_eq_true.mp h1.2,
    List.all_eq_true.mp h2.2⟩, List.all_eq_true.mp h3.2⟩

lemma goodComp_spec {v : PyVal} (h : goodComp v = true) :
    ∃ n, pyIntOf v = some n ∧ 0 ≤ n ∧ n ≤ 255 := by
  unfold goodComp at h
  cases hv : pyIntOf v with
  | some n =>
    rw [hv] at h
    exact ⟨n, rfl, of_decide_eq_true h⟩
  | none =>
    rw [hv] at h
    exact absurd h (by simp)

lemma isFloat01_spec {v : PyVal} (h : isFloat01 v = true) :
    ∃ q : ℚ, v = .float q ∧ 0 ≤ q ∧ q ≤ 1 := by
  cases v with
  | float q => exact ⟨q, rfl, of_decide_eq_true h⟩
  | int n => simp [isFloat01] at h
  | str s => simp [isFloat01] at h

lemma pyTrunc_scale_bounds {q : ℚ} (h0 : 0 ≤ q) (h1 : q ≤ 1) :
    0 ≤ pyTrunc (q * 255) ∧ pyTrunc (q * 255) ≤ 255 := by
  have hq : 0 ≤ q * 255 := by positivity
  unfold pyTrunc
  rw [if_pos hq]
  refine ⟨Int.floor_nonneg.2 hq, ?_⟩
  have hle : q * 255 ≤ 255 := by nlinarith
  calc ⌊q * 255⌋ ≤ ⌊(255 : ℚ)⌋ := Int.floor_le_floor hle
    _ = 255 := by norm_num

/-- C2 counterexample: the input `(300, 0, 0)` — a sequence of numeric
components of large magnitude — resolves to `"#12C0000"`, which is neither
`transparent`, nor a `#` followed by six uppercase hex digits, nor the
`"#000000"` fallback the claim promises for malformed input. -/
theorem C2_counterexample :
    rgbaToHex (.pyseq [.int 300, .int 0, .int 0]) = some (lit "#12C0000") ∧
      matchesHex6 (lit "#12C0000") = false ∧
      lit "#12C0000" ≠ lit "transparent" ∧
      lit "#12C0000" ≠ lit "#000000" := by
  refine ⟨rfl, ?_, ?_, ?_⟩ <;> decide

/-- C2 (amended): `_rgba_to_hex` returns `transparent` or a string matching
`#[0-9A-F]{6}` for absent input, scalar integers, non-sequences, short
sequences, and sequences whose first three components either are all
floats in `[0, 1]` or all convert via `int()` to values in `0..255`.
(Outside this domain the guarantee fails: out-of-range components produce
malformed hex strings and non-numeric components raise.) -/
theorem C2_resolver_wellformed (c : PyColor) (h : goodColorB c = true) :
    ∃ s, rgbaToHex c = some s ∧ (s = lit "transparent" ∨ matchesHex6 s = true) := by
  cases c with
  | pynone => exact ⟨_, rfl, Or.inl rfl⟩
  | pyint n => exact ⟨_, rfl, Or.inr (by decide)⟩
  | pyother => exact ⟨_, rfl, Or.inr (by decide)⟩
  | pyseq vals =>
    match vals with
    | [] => exact ⟨_, rfl, Or.inr (by decide)⟩
    | [v] => exact ⟨_, rfl, Or.inr (by decide)⟩
    | [v, w] => exact ⟨_, rfl, Or.inr (by decide)⟩
    | r :: g :: b :: rest =>
      have hmain : ∃ ri gi bi, rgbaToHex (.pyseq (r :: g :: b :: rest)) =
          (if (r :: g :: b :: rest).length = 4 ∧
              pyEqZero ((r :: g :: b :: rest).getD 3 (.int 1))
            then some (lit "transparent")
            else some ('#' :: (fmt02X ri ++ fmt02X gi ++ fmt02X bi))) ∧
          (0 ≤ ri ∧ ri ≤ 255) ∧ (0 ≤ gi ∧ gi ≤ 255) ∧ (0 ≤ bi ∧ bi ≤ 255) := by
        by_cases hf : (isFloat01 r && isFloat01 g && isFloat01 b) = true
        · have hf' := hf
          simp only [Bool.and_eq_true] at hf'
          obtain ⟨⟨hfr, hfg⟩, hfb⟩ := hf'
          obtain ⟨rq, hrq, hrq0, hrq1⟩ := isFloat01_spec hfr
          obtain ⟨gq, hgq, hgq0, hgq1⟩ := isFloat01_spec hfg
          obtain ⟨bq, hbq, hbq0, hbq1⟩ := isFloat01_spec hfb
          subst hrq; subst hgq; subst hbq
          refine ⟨pyTrunc (rq * 255), pyTrunc (gq * 255), pyTrunc (bq * 255), ?_,
            pyTrunc_scale_bounds hrq0 hrq1, pyTrunc_scale_bounds hgq0 hgq1,
            pyTrunc_scale_bounds hbq0 hbq1⟩
          simp only [rgbaToHex]
          rw [if_pos hf]
        · have hgood : goodComp r = true ∧ goodComp g = true ∧ goodComp b = true := by
            simp only [goodColorB, Bool.or_eq_true, Bool.and_eq_true] at h
            rcases h with h' | h'
            · exact absurd (by simp [h'.1.1, h'.1.2, h'.2]) hf
            · exact ⟨h'.1.1, h'.1.2, h'.2⟩
          obtain ⟨ri, hri, hri0, hri255⟩ := goodComp_spec hgood.1
          obtain ⟨gi, hgi, hgi0, hgi255⟩ := goodComp_spec hgood.2.1
          obtain ⟨bi, hbi, hbi0, hbi255⟩ := goodComp_spec hgood.2.2
          refine ⟨ri, gi, bi, ?_, ⟨hri0, hri255⟩, ⟨hgi0, hgi255⟩, ⟨hbi0, hbi255⟩⟩
          simp only [rgbaToHex]
          rw [if_neg hf, hri, hgi, hbi]
          rfl
      obtain ⟨ri, gi, bi, heq, hbr, hbg, hbb⟩ := hmain
      by_cases ht : ((r :: g :: b :: rest).length = 4 ∧
          pyEqZero ((r :: g :: b :: rest).getD 3 (.int 1)))
      · exact ⟨_, by rw [heq, if_pos ht], Or.inl rfl⟩
      · exact ⟨_, by rw [heq, if_neg ht],
          Or.inr (matchesHex6_concat (fmt02X_hex hbr.1 hbr.2)
            (fmt02X_hex hbg.1 hbg.2) (fmt02X_hex hbb.1 hbb.2))⟩

/-- C2 witness: the amended theorem applied to the concrete float triple
`(0.0, 0.0, 1.0)`. -/
theorem C2_resolver_witness :
    goodColorB (.pyseq [.float 0, .float 0, .float 1]) = true ∧
      ∃ s, rgbaToHex (.pyseq [.float 0, .float 0, .float 1]) = some s ∧
        (s = lit "transparent" ∨ matchesHex6 s = true) :=
  ⟨by decide, C2_resolver_wellformed _ (by decide)⟩

/-! ### C6: column pixel widths -/

/-- C6 counterexample: for declared width 10.5 the code emits
`int((10.5 + 0.72) * 7) = 78`, while rounding `(10.5 + 0.72) * 7 = 78.54`
to the nearest integer gives 79. -/
theorem C6_counterexample :
    colPx (21 / 2) = 78 ∧ round (((21 / 2 : ℚ) + 0.72) * 7) = 79 ∧
      colPx (21 / 2) ≠ round (((21 / 2 : ℚ) + 0.72) * 7) := by
  have h1 : colPx (21 / 2) = 78 := by
    unfold colPx pyTrunc
    norm_num
  have h2 : round (((21 / 2 : ℚ) + 0.72) * 7) = 79 := by
    rw [round_eq]
    norm_num
  exact ⟨h1, h2, by rw [h1, h2]; decide⟩

/-- C6 (amended): for every nonnegative declared width the emitted pixel
width is the truncation `⌊(w + 0.72) * 7⌋` of the exact product — the
floor, not the rounding to the nearest integer. -/
theorem C6_colPx_floor (w : ℚ) (h : 0 ≤ w) : colPx w = ⌊(w + 0.72) * 7⌋ := by
  unfold colPx pyTrunc
  rw [if_pos]
  positivity

/-- C6 witness: the amended theorem applied at width 10 (the worksheet
default), giving 75px. -/
theorem C6_colPx_floor_witness :
    (0 : ℚ) ≤ 10 ∧ colPx 10 = ⌊(((10 : ℚ)) + 0.72) * 7⌋ :=
  ⟨by norm_num, C6_colPx_floor 10 (by norm_num)⟩

/-! ### C9: the document shell -/

set_option maxRecDepth 100000 in
/-- C9 counterexample: the shell's title element is not empty — the
assembled document (here with empty fragments) contains
`<title>Document</title>` and no empty `<title></title>`. -/
theorem C9_counterexample :
    ¬ (lit "<title></title>" <:+: fullDoc [] []) ∧
      (lit "<title>Document</title>" <:+: fullDoc [] []) := by
  constructor <;> decide

set_option maxRecDepth 100000 in
/-- C9 (amended): for every css and html fragment the assembled document
contains the fixed charset declaration, the viewport meta tag, and a title
element whose fixed text is `Document` (not an empty title). -/
theorem C9_shell_header (css html : List Char) :
    (lit "<meta charset=\"UTF-8\">" <:+: fullDoc css html) ∧
      (lit "<meta name=\"viewport\" content=\"width=device-width, initial-scale=1.0\">" <:+:
        fullDoc css html) ∧
      (lit "<title>Document</title>" <:+: fullDoc css html) := by
  unfold fullDoc
  refine ⟨?_, ?_, ?_⟩ <;>
    exact isInfix_extend_right _ (isInfix_extend_right _ (isInfix_extend_right _
      (isInfix_extend_right _ (by decide))))

/-! ### C3, C4: absolute-mode text positioning and border strings -/

lemma decRepr_eq_of (q : ℚ) (n d : Nat) (h0 : ¬ q < 0) (hn : q.num = (n : ℤ))
    (hd : q.den = d) :
    decRepr q = natRepr (n / d) ++ ['.'] ++
      (if n % d = 0 then ['0'] else fracDigits 30 (n % d) d) := by
  unfold decRepr
  rw [if_neg h0, hn, hd]
  simp

/-- C3 counterexample: at scale 2 the text top position computed by the
code (`y0*scale − fontSize*0.8`, here `20*2 − 12*0.8 = 30.4`) differs from
the claimed `y0*scale − fontSize*scale*0.8 = 20.8`. -/
theorem C3_counterexample :
    textTop 20 12 2 = 152 / 5 ∧ ((20 : ℚ) * 2 - 12 * 2 * 0.8) = 104 / 5 ∧
      textTop 20 12 2 ≠ (20 : ℚ) * 2 - 12 * 2 * 0.8 := by
  refine ⟨by norm_num [textTop], by norm_num, by norm_num [textTop]⟩

/-- C3 (amended): the absolute-mode renderer positions every text element
at `left = x0*scale` and `top = y0*scale − fontSize*0.8` — the baseline
correction uses the unscaled font size (consistent with the unscaled
`font-size` the renderer emits); at scale 1.0 the spec example holds:
bbox `[10,20,100,40]` with font size 12 is placed at left 10,
top `10.4`. -/
theorem C3_text_position :
    (∀ (x0 y0 x1 y1 : ℚ) (txt fontName : List Char) (size : ℚ) (color : List Char)
      (s : ℚ), ∃ rest,
        paEmitEl (.text x0 y0 x1 y1 txt fontName size color) s =
          some (lit "<div style=\"position:absolute;left:" ++ decRepr (x0 * s) ++
            lit "px;top:" ++ decRepr (y0 * s - size * 0.8) ++ lit "px;" ++ rest)) ∧
      textLeft 10 1 = 10 ∧ textTop 20 12 1 = 52 / 5 := by
  refine ⟨?_, by norm_num [textLeft], by norm_num [textTop]⟩
  intro x0 y0 x1 y1 txt fontName size color s
  refine ⟨lit "font-family:" ++ fontName ++ lit ";font-size:" ++ decRepr size ++
    lit "px;color:" ++ color ++ lit ";line-height:" ++ decRepr (size * 1.1) ++
    lit "px;white-space:pre;z-index:10;" ++ lit "\">" ++ pa_cssEscape txt ++
    lit "</div>", ?_⟩
  simp only [paEmitEl, paTextStyle, textLeft, textTop, List.append_assoc]
  rfl

/-- C4: the code converts the stroke thickness twice —
`_build_page_absolute` maps the raw thickness to css pixels
(`1 * 1 * 0.75 = 0.75`) and `_border_css_from` then re-applies
`_map_pdf_thickness_to_css` to that value, so for stroke `#000000`,
thickness 1 and scale 1 the emitted border is `0.5625px solid #000000`
instead of the `0.75px solid #000000` a single conversion (as documented)
would give. -/
theorem C4_border_double_converted :
    mapPdfThicknessToCss 1 1 = 3 / 4 ∧
      rectBorderCss (lit "#000000") 1 1 = lit "0.5625px solid #000000" ∧
      rectBorderCss (lit "#000000") 1 1 ≠ lit "0.75px solid #000000" := by
  have hmap1 : mapPdfThicknessToCss 1 1 = 3 / 4 := by
    unfold mapPdfThicknessToCss
    rw [if_neg (by norm_num)]
    norm_num [min_def, max_def]
  have hmap2 : mapPdfThicknessToCss (3 / 4) 1 = 9 / 16 := by
    unfold mapPdfThicknessToCss
    rw [if_neg (by norm_num)]
    norm_num [min_def, max_def]
  have e1 : pyIntBase16 (((lit "#000000").drop 1).take 2) = some 0 := by decide
  have e2 : pyIntBase16 (((lit "#000000").drop 3).take 2) = some 0 := by decide
  have e3 : pyIntBase16 (((lit "#000000").drop 5).take 2) = some 0 := by decide
  have hlum : luminanceFromHex (lit "#000000") = 0 := by
    unfold luminanceFromHex
    rw [if_neg (by decide), e1, e2, e3]
    norm_num
  have hnt : ¬ (lit "#000000" = lit "transparent") := by decide
  have heq : rectBorderCss (lit "#000000") 1 1 = lit "0.5625px solid #000000" := by
    unfold rectBorderCss borderCssFrom
    rw [hmap1, hmap2, hlum, if_neg hnt, if_pos (show (0 : ℚ) ≤ 230 by norm_num),
      decRepr_eq_of (9 / 16) 9 16 (by norm_num) (by norm_num) (by norm_num)]
    decide
  exact ⟨hmap1, heq, by rw [heq]; decide⟩

/-! ### C7: image emission and the 300px cap -/

/-- C7: an image element without bitmap bytes emits nothing; one with
bytes is positioned at `left = x0*scale`, `top = y0*scale`, and exactly
when a displayed dimension exceeds 300 the box additionally carries
`max-width:300px;max-height:300px;` while the left/top position is
unchanged. -/
theorem C7_image_cap :
    (∀ (x0 y0 x1 y1 s : ℚ),
      paEmitEl (.image x0 y0 x1 y1 none) s = none ∧
        paEmitEl (.image x0 y0 x1 y1 (some [])) s = none) ∧
    (∀ (x0 y0 x1 y1 s : ℚ) (b : Nat) (bs : List Nat),
      ((300 < max 0 (x1 * s - x0 * s) ∨ 300 < max 0 (y1 * s - y0 * s)) →
        paEmitEl (.image x0 y0 x1 y1 (some (b :: bs))) s =
          some (lit "<img style=\"position:absolute;left:" ++ decRepr (x0 * s) ++
            lit "px;top:" ++ decRepr (y0 * s) ++
            lit "px;width:" ++ decRepr (max 0 (x1 * s - x0 * s)) ++
            lit "px;height:" ++ decRepr (max 0 (y1 * s - y0 * s)) ++
            lit "px;object-fit:contain;z-index:5;max-width:300px;max-height:300px;" ++
            lit "\" src=\"data:image/png;base64," ++ b64Encode (b :: bs) ++
            lit "\"/>")) ∧
      ((max 0 (x1 * s - x0 * s) ≤ 300 ∧ max 0 (y1 * s - y0 * s) ≤ 300) →
        paEmitEl (.image x0 y0 x1 y1 (some (b :: bs))) s =
          some (lit "<img style=\"position:absolute;left:" ++ decRepr (x0 * s) ++
            lit "px;top:" ++ decRepr (y0 * s) ++
            lit "px;width:" ++ decRepr (max 0 (x1 * s - x0 * s)) ++
            lit "px;height:" ++ decRepr (max 0 (y1 * s - y0 * s)) ++
            lit "px;object-fit:contain;z-index:5;" ++
            lit "\" src=\"data:image/png;base64," ++ b64Encode (b :: bs) ++
            lit "\"/>"))) := by
  refine ⟨fun x0 y0 x1 y1 s => ⟨rfl, rfl⟩, fun x0 y0 x1 y1 s b bs => ⟨?_, ?_⟩⟩
  · intro hcap
    have hb : (decide (300 < max 0 (x1 * s - x0 * s)) ||
        decide (300 < max 0 (y1 * s - y0 * s))) = true := by
      rcases hcap with hc | hc
      · simp [hc]
      · simp [hc]
    simp only [paEmitEl, paImgStyle, hb, if_true, List.append_assoc]
    rfl
  · rintro ⟨hw, hh⟩
    have hb : (decide (300 < max 0 (x1 * s - x0 * s)) ||
        decide (300 < max 0 (y1 * s - y0 * s))) = false := by
      simp [not_lt.2 hw, not_lt.2 hh]
    simp only [paEmitEl, paImgStyle, hb, if_false, List.append_nil, List.append_assoc]
    rfl

/-- C7 witness: the theorem's capped and uncapped branches applied at
concrete images (displayed width 500 > 300, and 100 ≤ 300). -/
theorem C7_image_cap_witness :
    ((300 : ℚ) < max 0 ((500 : ℚ) * 1 - 0 * 1) ∨
        (300 : ℚ) < max 0 ((100 : ℚ) * 1 - 0 * 1)) ∧
      paEmitEl (.image 0 0 500 100 (some [137])) 1 =
        some (lit "<img style=\"position:absolute;left:" ++ decRepr ((0 : ℚ) * 1) ++
          lit "px;top:" ++ decRepr ((0 : ℚ) * 1) ++
          lit "px;width:" ++ decRepr (max 0 ((500 : ℚ) * 1 - (0 : ℚ) * 1)) ++
          lit "px;height:" ++ decRepr (max 0 ((100 : ℚ) * 1 - (0 : ℚ) * 1)) ++
          lit "px;object-fit:contain;z-index:5;max-width:300px;max-height:300px;" ++
          lit "\" src=\"data:image/png;base64," ++ b64Encode [137] ++ lit "\"/>") :=
  ⟨Or.inl (by norm_num), (C7_image_cap.2 0 0 500 100 1 137 []).1 (Or.inl (by norm_num))⟩

/-! ### C8: stacking order values -/

set_option maxRecDepth 400000 in
/-- C8 counterexample: the absolute-mode builder of `html_builder` (the
one `main.py` routes `/analyze/pdf` through) emits markup containing no
stacking-order declaration at all — here a page with one text element. -/
theorem C8_counterexample :
    (hbBuildPageAbsolute 100 100
        [.text 10 20 100 40 (lit "Hi") (lit "Arial") 12 (lit "#000")]).isSome = true ∧
      ¬ (lit "z-index" <:+:
          (hbBuildPageAbsolute 100 100
            [.text 10 20 100 40 (lit "Hi") (lit "Arial") 12 (lit "#000")]).getD []) := by
  constructor
  · rfl
  · decide

/-- C8 (amended): in `pdf_analyzer._build_page_absolute` every emitted
element carries a stacking-order value determined solely by its kind —
`z-index:10` for text, `z-index:1` for rects, `z-index:5` for emitted
images — but the `html_builder` absolute builder used by the API emits no
stacking-order value (see the counterexample). -/
theorem C8_pa_zindex :
    (∀ (x0 y0 x1 y1 : ℚ) (txt fontName : List Char) (size : ℚ) (color : List Char)
        (s : ℚ), lit "z-index:10;" <:+:
          (paEmitEl (.text x0 y0 x1 y1 txt fontName size color) s).getD []) ∧
    (∀ (x0 y0 x1 y1 : ℚ) (stroke fill : List Char) (thickness s : ℚ),
        lit "z-index:1;" <:+:
          (paEmitEl (.rect x0 y0 x1 y1 stroke fill thickness) s).getD []) ∧
    (∀ (x0 y0 x1 y1 : ℚ) (b : Nat) (bs : List Nat) (s : ℚ),
        lit "z-index:5;" <:+:
          (paEmitEl (.image x0 y0 x1 y1 (some (b :: bs))) s).getD []) := by
  refine ⟨?_, ?_, ?_⟩
  · intro x0 y0 x1 y1 txt fontName size color s
    simp only [paEmitEl, paTextStyle, Option.getD_some, List.append_assoc]
    repeat first
    | exact isInfix_extend_right _ (by decide)
    | apply isInfix_extend_left
  · intro x0 y0 x1 y1 stroke fill thickness s
    simp only [paEmitEl, paRectStyle, Option.getD_some, List.append_assoc]
    repeat first
    | exact isInfix_extend_right _ (by decide)
    | apply isInfix_extend_left
  · intro x0 y0 x1 y1 b bs s
    simp only [paEmitEl, paImgStyle, Option.getD_some, List.append_assoc]
    repeat first
    | exact isInfix_extend_right _ (by decide)
    | apply isInfix_extend_left

/-! ### C10: spreadsheet cell text is not escaped -/

/-- C10: the table builder interpolates a cell's value into the `<td>`
markup verbatim — even when it contains the markup-significant characters
`&`, `<` or `>`, the raw value occurs unchanged in the emitted cell. -/
theorem C10_cell_text_verbatim (cell : XCell) (rowspan colspan : Nat) (v : List Char)
    (hv : cell.value = some v) (_hm : '&' ∈ v ∨ '<' ∈ v ∨ '>' ∈ v) :
    v <:+: renderCell rowspan colspan cell := by
  unfold renderCell
  rw [hv]
  refine ⟨lit "<td " ++ List.intercalate (lit " ")
      ((if 1 < rowspan then [lit "rowspan=\x27" ++ natRepr rowspan ++ lit "\x27"] else []) ++
        (if 1 < colspan then [lit "colspan=\x27" ++ natRepr colspan ++ lit "\x27"] else []) ++
        [lit "style=\"" ++ List.intercalate (lit ";") (stylePartsOf cell) ++ lit "\""]) ++
      lit ">", lit "</td>", ?_⟩
  simp [List.append_assoc]

/-- C10 witness: the theorem applied to a concrete cell whose value is
`"<b>&"`. -/
theorem C10_cell_text_verbatim_witness :
    (XCell.mk (some (lit "<b>&")) none none false none none none none false
        false false false false).value = some (lit "<b>&") ∧
      ('&' ∈ lit "<b>&" ∨ '<' ∈ lit "<b>&" ∨ '>' ∈ lit "<b>&") ∧
      lit "<b>&" <:+: renderCell 1 1
        (XCell.mk (some (lit "<b>&")) none none false none none none none false
          false false false false) :=
  ⟨rfl, Or.inl (by decide),
    C10_cell_text_verbatim _ 1 1 _ rfl (Or.inl (by decide))⟩

/-! ### C1: merged regions emit exactly one anchored cell -/

lemma mem_rowCells {M : List MergeEntry} {maxCol r : Nat} :
    ∀ {fuel c : Nat} {x : TCell}, x ∈ rowCells M maxCol r c fuel →
      x.r = r ∧ c ≤ x.c ∧ x.c ≤ maxCol ∧ skipAt M r x.c = false := by
  intro fuel
  induction fuel with
  | zero => intro c x hx; simp [rowCells] at hx
  | succ fuel ih =>
    intro c x hx
    simp only [rowCells] at hx
    by_cases h1 : maxCol < c
    · rw [if_pos h1] at hx
      simp at hx
    · rw [if_neg h1] at hx
      by_cases h2 : skipAt M r c = true
      · rw [if_pos h2] at hx
        obtain ⟨hr, hc, hmc, hs⟩ := ih hx
        exact ⟨hr, by omega, hmc, hs⟩
      · rw [if_neg h2] at hx
        have h2' : skipAt M r c = false := by simpa using h2
        rcases List.mem_cons.1 hx with rfl | hx
        · exact ⟨rfl, le_refl c, by show c ≤ maxCol; omega, h2'⟩
        · obtain ⟨hr, hc, hmc, hs⟩ := ih hx
          exact ⟨hr, by omega, hmc, hs⟩

lemma skipAt_true_of {M : List MergeEntry} {e : MergeEntry} (he : e ∈ M) {r c : Nat}
    (hcov : coversB e r c = true) (hanch : isAnchorB e r c = false) :
    skipAt M r c = true := by
  unfold skipAt
  rw [List.any_eq_true]
  exact ⟨e, he, by rw [hcov, hanch]; rfl⟩

lemma tableCells_no_covered_nonanchor {M : List MergeEntry} {maxRow maxCol : Nat}
    {e : MergeEntry} (he : e ∈ M) {r c : Nat}
    (hcov : coversB e r c = true) (hanch : isAnchorB e r c = false) :
    ∀ x ∈ tableCells M maxRow maxCol, ¬ (x.r = r ∧ x.c = c) := by
  rintro x hx ⟨hr, hc⟩
  unfold tableCells at hx
  simp only [List.mem_flatMap] at hx
  obtain ⟨r', _, hxr⟩ := hx
  obtain ⟨hxrow, -, -, hskip⟩ := mem_rowCells hxr
  subst hxrow
  rw [hr, hc] at hskip
  rw [skipAt_true_of he hcov hanch] at hskip
  simp at hskip

lemma mergeLookup_some_mem {M : List MergeEntry} {r c : Nat} {v : Nat × Nat}
    (h : mergeLookup M r c = some v) :
    ∃ e ∈ M, e.rr = r ∧ e.cc = c ∧ v = (e.rs, e.cs) := by
  induction M with
  | nil => simp [mergeLookup] at h
  | cons a t ih =>
    simp only [mergeLookup] at h
    cases ht : mergeLookup t r c with
    | some w =>
      rw [ht] at h
      injection h with h
      subst h
      obtain ⟨e, hmem, h1, h2, h3⟩ := ih ht
      exact ⟨e, List.mem_cons_of_mem _ hmem, h1, h2, h3⟩
    | none =>
      rw [ht] at h
      by_cases hac : a.rr = r ∧ a.cc = c
      · rw [if_pos hac] at h
        injection h with h
        exact ⟨a, List.mem_cons_self _ _, hac.1, hac.2, h.symm⟩
      · rw [if_neg hac] at h
        exact absurd h (by simp)

lemma mergeLookup_eq_of_unique {M : List MergeEntry} {e : MergeEntry} (he : e ∈ M)
    (huniq : ∀ e' ∈ M, e'.rr = e.rr → e'.cc = e.cc → e' = e) :
    mergeLookup M e.rr e.cc = some (e.rs, e.cs) := by
  induction M with
  | nil => simp at he
  | cons a t ih =>
    simp only [mergeLookup]
    cases ht : mergeLookup t e.rr e.cc with
    | some w =>
      obtain ⟨e', he', h1, h2, h3⟩ := mergeLookup_some_mem ht
      have hee : e' = e := huniq e' (List.mem_cons_of_mem _ he') h1 h2
      rw [h3, hee]
    | none =>
      rcases List.mem_cons.1 he with rfl | het
      · rw [if_pos ⟨rfl, rfl⟩]
      · have := ih het (fun e' he' => huniq e' (List.mem_cons_of_mem _ he'))
        rw [ht] at this
        exact absurd this (by simp)

lemma entriesDisjoint_symm {e1 e2 : MergeEntry} (h : EntriesDisjoint e1 e2) :
    EntriesDisjoint e2 e1 :=
  fun r c hc => h r c ⟨hc.2, hc.1⟩

lemma pairwise_disjoint_of_mem {M : List MergeEntry} (hd : M.Pairwise EntriesDisjoint)
    {e1 e2 : MergeEntry} (h1 : e1 ∈ M) (h2 : e2 ∈ M) (hne : e1 ≠ e2) :
    EntriesDisjoint e1 e2 :=
  List.Pairwise.forall (fun _ _ h => entriesDisjoint_symm h) hd h1 h2 hne

lemma coversB_anchor {e : MergeEntry} (hrs : 1 ≤ e.rs) (hcs : 1 ≤ e.cs) :
    coversB e e.rr e.cc = true := by
  simp [coversB]
  omega

lemma anchor_unique {M : List MergeEntry} {maxRow maxCol : Nat}
    (hval : ∀ e ∈ M, EntryInGrid maxRow maxCol e)
    (hdisj : M.Pairwise EntriesDisjoint) {e : MergeEntry} (he : e ∈ M) :
    ∀ e' ∈ M, e'.rr = e.rr → e'.cc = e.cc → e' = e := by
  intro e' he' h1 h2
  by_contra hne
  have hd := pairwise_disjoint_of_mem hdisj he' he hne
  obtain ⟨-, -, hrs, hcs, -, -⟩ := hval e he
  obtain ⟨-, -, hrs', hcs', -, -⟩ := hval e' he'
  apply hd e.rr e.cc
  refine ⟨?_, coversB_anchor hrs hcs⟩
  rw [← h1, ← h2]
  exact coversB_anchor hrs' hcs'

lemma skipAt_anchor_false {M : List MergeEntry} {maxRow maxCol : Nat}
    (hval : ∀ e ∈ M, EntryInGrid maxRow maxCol e)
    (hdisj : M.Pairwise EntriesDisjoint) {e : MergeEntry} (he : e ∈ M) :
    skipAt M e.rr e.cc = false := by
  by_contra h
  have h' : skipAt M e.rr e.cc = true := by simpa using h
  unfold skipAt at h'
  rw [List.any_eq_true] at h'
  obtain ⟨e', he', hcond⟩ := h'
  rw [Bool.and_eq_true] at hcond
  obtain ⟨hcov', hna⟩ := hcond
  have hna' : isAnchorB e' e.rr e.cc = false := by simpa using hna
  by_cases hee : e' = e
  · subst hee
    simp [isAnchorB] at hna'
  · have hd := pairwise_disjoint_of_mem hdisj he' he hee
    obtain ⟨-, -, hrs, hcs, -, -⟩ := hval e he
    exact hd e.rr e.cc ⟨hcov', coversB_anchor hrs hcs⟩

lemma rowCells_filter_anchor {M : List MergeEntry} {maxRow maxCol : Nat}
    (hval : ∀ e ∈ M, EntryInGrid maxRow maxCol e)
    (hdisj : M.Pairwise EntriesDisjoint) {e : MergeEntry} (he : e ∈ M) :
    ∀ (fuel c : Nat), c ≤ e.cc → maxCol + 1 ≤ c + fuel →
      (rowCells M maxCol e.rr c fuel).filter
          (fun x => x.r == e.rr && x.c == e.cc) = [⟨e.rr, e.cc, e.rs, e.cs⟩] := by
  obtain ⟨h1r, h1c, hrs, hcs, hrow, hcol⟩ := hval e he
  have hccMax : e.cc ≤ maxCol := by omega
  intro fuel
  induction fuel with
  | zero => intro c hc hf; exact absurd hf (by omega)
  | succ fuel ih =>
    intro c hc hf
    simp only [rowCells]
    rw [if_neg (show ¬ maxCol < c by omega)]
    by_cases hskip : skipAt M e.rr c = true
    · rw [if_pos hskip]
      have hcne : c ≠ e.cc := by
        intro hceq
        subst hceq
        rw [skipAt_anchor_false hval hdisj he] at hskip
        simp at hskip
      exact ih (c + 1) (by omega) (by omega)
    · rw [if_neg hskip]
      by_cases hceq : c = e.cc
      · subst hceq
        have hlook : mergeLookup M e.rr e.cc = some (e.rs, e.cs) :=
          mergeLookup_eq_of_unique he (anchor_unique hval hdisj he)
        rw [hlook]
        simp only [Option.getD_some]
        rw [List.filter_cons_of_pos (by simp)]
        have htail : (rowCells M maxCol e.rr (e.cc + e.cs) fuel).filter
            (fun x => x.r == e.rr && x.c == e.cc) = [] := by
          rw [List.filter_eq_nil_iff]
          intro x hx
          obtain ⟨-, hcle, -, -⟩ := mem_rowCells hx
          simp only [Bool.and_eq_true, beq_iff_eq, not_and]
          intro _
          omega
        rw [htail]
      · have hclt : c < e.cc := by omega
        cases hl : mergeLookup M e.rr c with
        | none =>
          simp only [Option.getD_none]
          rw [List.filter_cons_of_neg (by simp [hceq])]
          exact ih (c + 1) (by omega) (by omega)
        | some v =>
          obtain ⟨e', he', hr', hc', hv⟩ := mergeLookup_some_mem hl
          subst hv
          obtain ⟨-, -, hrs', hcs', -, -⟩ := hval e' he'
          have hle : c + e'.cs ≤ e.cc := by
            by_contra hlt
            push_neg at hlt
            have hne : e' ≠ e := by
              intro hh
              subst hh
              exact hceq hc'.symm
            have hd := pairwise_disjoint_of_mem hdisj he' he hne
            apply hd e.rr e.cc
            refine ⟨?_, coversB_anchor hrs hcs⟩
            simp only [coversB, Bool.and_eq_true, decide_eq_true_eq]
            omega
          simp only [Option.getD_some]
          rw [List.filter_cons_of_neg (by simp [hceq])]
          exact ih (c + e'.cs) (by omega) (by omega)

lemma filter_flatMap {α β : Type} (l : List α) (f : α → List β) (p : β → Bool) :
    (l.flatMap f).filter p = l.flatMap (fun a => (f a).filter p) := by
  induction l with
  | nil => rfl
  | cons a t ih => simp [List.flatMap_cons, List.filter_append, ih]

lemma flatMap_eq_nil_of {α β : Type} {l : List α} {f : α → List β}
    (h : ∀ a ∈ l, f a = []) : l.flatMap f = [] := by
  induction l with
  | nil => rfl
  | cons a t ih =>
    rw [List.flatMap_cons, h a (List.mem_cons_self _ _),
      ih (fun b hb => h b (List.mem_cons_of_mem _ hb))]
    rfl

lemma flatMap_eq_singleton {α β : Type} [DecidableEq α] {l : List α} {f : α → List β}
    (a0 : α) {x : β} (hmem : a0 ∈ l) (hnd : l.Nodup) (hg : f a0 = [x])
    (hother : ∀ a ∈ l, a ≠ a0 → f a = []) : l.flatMap f = [x] := by
  induction l with
  | nil => simp at hmem
  | cons a t ih =>
    rw [List.flatMap_cons]
    rcases List.mem_cons.1 hmem with rfl | hat
    · rw [hg, flatMap_eq_nil_of (fun b hb => hother b (List.mem_cons_of_mem _ hb)
        (fun hba => (List.nodup_cons.1 hnd).1 (hba ▸ hb)))]
      rfl
    · have ha : f a = [] := hother a (List.mem_cons_self _ _)
        (fun haa => (List.nodup_cons.1 hnd).1 (haa ▸ hat))
      rw [ha, List.nil_append]
      exact ih hat (List.nodup_cons.1 hnd).2
        (fun b hb hb0 => hother b (List.mem_cons_of_mem _ hb) hb0)

/-- C1: for every sheet and every list of merge regions that lie within
the grid and are pairwise disjoint, the row loop emits exactly one cell
for each region — at its anchor, carrying the region's row and column
spans — and emits no cell at any covered non-anchor position. -/
theorem C1_merge_regions (M : List MergeEntry) (maxRow maxCol : Nat)
    (hval : ∀ e ∈ M, EntryInGrid maxRow maxCol e)
    (hdisj : M.Pairwise EntriesDisjoint) (e : MergeEntry) (he : e ∈ M) :
    (tableCells M maxRow maxCol).filter (fun x => x.r == e.rr && x.c == e.cc) =
        [⟨e.rr, e.cc, e.rs, e.cs⟩] ∧
      ∀ r c, coversB e r c = true → isAnchorB e r c = false →
        ∀ x ∈ tableCells M maxRow maxCol, ¬ (x.r = r ∧ x.c = c) := by
  constructor
  · unfold tableCells
    rw [filter_flatMap]
    obtain ⟨h1r, h1c, hrs, hcs, hrow, hcol⟩ := hval e he
    apply flatMap_eq_singleton e.rr
    · rw [List.mem_range'_1]
      omega
    · exact List.nodup_range' _ _
    · exact rowCells_filter_anchor hval hdisj he (maxCol + 1) 1 h1c (by omega)
    · intro r' _ hne
      rw [List.filter_eq_nil_iff]
      intro x hx
      have hxr := (mem_rowCells hx).1
      simp only [Bool.and_eq_true, beq_iff_eq, not_and, hxr]
      intro h
      exact absurd h hne
  · intro r c hcov hanch x hx hxrc
    exact tableCells_no_covered_nonanchor he hcov hanch x hx hxrc

/-- C1 witness: the theorem applied to the spec's 2×2 grid with the single
region anchored at (1,1) spanning 2 rows and 2 columns; the emitted table
consists of exactly the one anchored cell with rowspan 2 and colspan 2. -/
theorem C1_merge_regions_witness :
    EntryInGrid 2 2 ⟨1, 1, 2, 2⟩ ∧
      (tableCells [⟨1, 1, 2, 2⟩] 2 2).filter
          (fun x => x.r == (1 : Nat) && x.c == (1 : Nat)) = [⟨1, 1, 2, 2⟩] ∧
      tableCells [⟨1, 1, 2, 2⟩] 2 2 = [⟨1, 1, 2, 2⟩] :=
  ⟨by unfold EntryInGrid; decide,
    (C1_merge_regions [⟨1, 1, 2, 2⟩] 2 2
      (fun e hee => by
        simp only [List.mem_singleton] at hee
        subst hee
        unfold EntryInGrid
        decide)
      (List.pairwise_singleton _ _) ⟨1, 1, 2, 2⟩ (List.mem_singleton_self _)).1,
    by decide⟩

end DocAgent
